import Mathlib

/-!
Shallow embedding of the `lightyear` replication receiver
(`src/lightyear/src/shared/replication/receive.rs`) and the client
networking state machine (`src/lightyear/src/client/networking.rs`).

Rust `BTreeMap`s are embedded as association lists; `buffered_updates`
keeps its entries sorted by the wrapped tick order on insertion so that
iteration visits keys in map order, matching `BTreeMap` iteration.
-/

/-- Modelled from the spec: `Tick` is a 16-bit wrapping integer (the `Tick`
type itself is outside the excerpted sources); represented as a natural
number, always reduced modulo `2^16` by the operations below. -/
abbrev Tick := Nat

/-- Modelled from the spec: `MessageId` is a 16-bit wrapping sequence number
per reliable channel (the type itself is outside the excerpted sources). -/
abbrev MessageId := Nat

/-- Entities are opaque handles; embedded as naturals. -/
abbrev Entity := Nat

/-- ReplicationGroupId wraps an id; embedded as a natural. -/
abbrev ReplicationGroupId := Nat

/-- Modelled from the spec: the 16-bit wrapping difference `(a - b)` used by
tick / message-id comparisons. -/
def wrapDiff (a b : Nat) : Nat :=
  (a % 65536 + (65536 - b % 65536)) % 65536

/-- Modelled from the spec: `a < b` iff `(a - b) as i16 < 0`, i.e. the
wrapped difference lies in the negative half of the 16-bit range. -/
def wrapLt (a b : Nat) : Bool :=
  32768 ≤ wrapDiff a b

/-- Modelled from the spec: `a <= b` iff `(a - b) as i16 <= 0`. -/
def wrapLe (a b : Nat) : Bool :=
  wrapDiff a b = 0 || wrapLt a b

/-- Wrapping 16-bit addition (`Tick + u16`, `MessageId += 1`). -/
def wrapAdd (a n : Nat) : Nat :=
  (a + n) % 65536

/-- Components: a payload identified by a kind; `entityRef` carries an
`Entity` field that must be remapped across the network boundary. -/
inductive Comp where
  | plain (kind : Nat) (val : Nat)
  | entityRef (kind : Nat) (e : Entity)
deriving Repr, DecidableEq

/-- The wire-level kind of a component. -/
def Comp.kind : Comp → Nat
  | .plain k _ => k
  | .entityRef k _ => k

/-- Per-entity actions carried by an actions message
(`EntityActions` in the source). -/
structure EntityActions where
  spawn : Bool
  despawn : Bool
  insert : List Comp
  remove : List Nat
  updates : List Comp
deriving Repr, DecidableEq

/-- Reliable, ordered actions message (`EntityActionMessage`). -/
structure EntityActionMessage where
  sequence_id : MessageId
  actions : List (Entity × EntityActions)
deriving Repr, DecidableEq

/-- Unreliable, tick-stamped updates message (`EntityUpdatesMessage`). -/
structure EntityUpdatesMessage where
  last_action_tick : Tick
  updates : List (Entity × List Comp)
deriving Repr, DecidableEq

/-- Payload of a replication message (`ReplicationMessageData`). -/
inductive ReplicationMessageData where
  | Actions (m : EntityActionMessage)
  | Updates (m : EntityUpdatesMessage)
deriving Repr, DecidableEq

/-- A replication message addressed to a group (`ReplicationMessage`). -/
structure ReplicationMessage where
  group_id : ReplicationGroupId
  data : ReplicationMessageData
deriving Repr, DecidableEq

/-- Association-list lookup (first binding wins), embedding map `get`. -/
def alistLookup {α β : Type} [DecidableEq α] (k : α) : List (α × β) → Option β
  | [] => none
  | (k', v) :: t => if k' = k then some v else alistLookup k t

/-- Association-list insert-or-replace, embedding map `insert`. -/
def alistInsert {α β : Type} [DecidableEq α] (k : α) (v : β) :
    List (α × β) → List (α × β)
  | [] => [(k, v)]
  | (k', v') :: t => if k' = k then (k, v) :: t else (k', v') :: alistInsert k v t

/-- Association-list removal of a binding, embedding map `remove`. -/
def alistErase {α β : Type} [DecidableEq α] (k : α) :
    List (α × β) → List (α × β)
  | [] => []
  | (k', v') :: t => if k' = k then t else (k', v') :: alistErase k t

/-- Insertion into a tick-keyed sorted association list, mirroring
`BTreeMap` insertion under the wrapped tick order. -/
def sortedInsertNew {β : Type} (k : Tick) (v : β) :
    List (Tick × β) → List (Tick × β)
  | [] => [(k, v)]
  | (k', v') :: t =>
    if wrapLt k k' then (k, v) :: (k', v') :: t
    else (k', v') :: sortedInsertNew k v t

/-- The receiver's per-group channel (`GroupChannel`); `buffered_updates`
maps a `last_action_tick` to the updates keyed by their remote tick. -/
structure GroupChannel where
  actions_pending_recv_message_id : MessageId
  actions_recv_message_buffer : List (MessageId × (Tick × EntityActionMessage))
  buffered_updates : List (Tick × List (Tick × EntityUpdatesMessage))
  latest_tick : Tick
deriving Repr, DecidableEq

/-- `GroupChannel::default`: pending id `MessageId(0)`, empty buffers,
`latest_tick = Tick(0)`. -/
def GroupChannel.default : GroupChannel :=
  { actions_pending_recv_message_id := 0
    actions_recv_message_buffer := []
    buffered_updates := []
    latest_tick := 0 }

/-- `buffered_updates.entry(last_action_tick).or_default().entry(remote_tick).or_insert(m)`:
insert without replacing an existing entry. -/
def bufferedUpdatesInsert (lat : Tick) (rt : Tick) (m : EntityUpdatesMessage)
    (l : List (Tick × List (Tick × EntityUpdatesMessage))) :
    List (Tick × List (Tick × EntityUpdatesMessage)) :=
  match l with
  | [] => [(lat, [(rt, m)])]
  | (k, inner) :: t =>
    if k = lat then
      (k, match alistLookup rt inner with
          | some _ => inner
          | none => sortedInsertNew rt m inner) :: t
    else if wrapLt lat k then (lat, [(rt, m)]) :: (k, inner) :: t
    else (k, inner) :: bufferedUpdatesInsert lat rt m t

/-- The branch of `recv_message` acting on one group channel: stale actions
(sequence id before the cursor) and stale updates (remote tick at or before
`latest_tick`) are dropped; otherwise the message is buffered. -/
def GroupChannel.recvData (c : GroupChannel) (data : ReplicationMessageData)
    (remote_tick : Tick) : GroupChannel :=
  match data with
  | .Actions m =>
    if wrapLt m.sequence_id c.actions_pending_recv_message_id then c
    else
      { c with
        actions_recv_message_buffer :=
          alistInsert m.sequence_id (remote_tick, m) c.actions_recv_message_buffer }
  | .Updates m =>
    if wrapLe remote_tick c.latest_tick then c
    else
      { c with
        buffered_updates :=
          bufferedUpdatesInsert m.last_action_tick remote_tick m c.buffered_updates }

/-- Modelled from the spec: `RemoteEntityMap` (defined in
`entity_map.rs`, outside the excerpted sources) bijects remote (server)
entity handles and local handles; both directions are kept. -/
structure RemoteEntityMap where
  remote_to_local : List (Entity × Entity)
  local_to_remote : List (Entity × Entity)
deriving Repr, DecidableEq

/-- Modelled from the spec: lookup of the local handle for a remote one. -/
def RemoteEntityMap.get_local (m : RemoteEntityMap) (remote : Entity) : Option Entity :=
  alistLookup remote m.remote_to_local

/-- Modelled from the spec: lookup of the remote handle for a local one. -/
def RemoteEntityMap.get_remote (m : RemoteEntityMap) (l : Entity) : Option Entity :=
  alistLookup l m.local_to_remote

/-- Modelled from the spec: record a remote/local pair in both directions. -/
def RemoteEntityMap.insert (m : RemoteEntityMap) (remote l : Entity) : RemoteEntityMap :=
  { remote_to_local := alistInsert remote l m.remote_to_local
    local_to_remote := alistInsert l remote m.local_to_remote }

/-- Modelled from the spec: remove a pair by its remote handle, returning
the local handle that was bound to it. -/
def RemoteEntityMap.remove_by_remote (m : RemoteEntityMap) (remote : Entity) :
    Option Entity × RemoteEntityMap :=
  match alistLookup remote m.remote_to_local with
  | none => (none, m)
  | some l =>
    (some l,
     { remote_to_local := alistErase remote m.remote_to_local
       local_to_remote := alistErase l m.local_to_remote })

/-- `ReplicationReceiver`: entity maps plus the per-group ordered channels. -/
structure ReplicationReceiver where
  remote_entity_map : RemoteEntityMap
  remote_entity_to_group : List (Entity × ReplicationGroupId)
  group_channels : List (ReplicationGroupId × GroupChannel)
deriving Repr, DecidableEq

/-- `ReplicationReceiver::new`: empty maps and no group channels. -/
def ReplicationReceiver.new : ReplicationReceiver :=
  { remote_entity_map := { remote_to_local := [], local_to_remote := [] }
    remote_entity_to_group := []
    group_channels := [] }

/-- `ReplicationReceiver::recv_message`: fetch (or default-insert) the
group's channel and buffer / drop the message. -/
def ReplicationReceiver.recv_message (r : ReplicationReceiver)
    (message : ReplicationMessage) (remote_tick : Tick) : ReplicationReceiver :=
  let c := (alistLookup message.group_id r.group_channels).getD GroupChannel.default
  { r with
    group_channels :=
      alistInsert message.group_id (c.recvData message.data remote_tick) r.group_channels }

/-- `GroupChannel::read_action`: release the buffered message at the pending
cursor (if present), advance the cursor by one and set `latest_tick` to the
released message's remote tick. -/
def GroupChannel.read_action (c : GroupChannel) :
    Option (Tick × EntityActionMessage) × GroupChannel :=
  match alistLookup c.actions_pending_recv_message_id c.actions_recv_message_buffer with
  | none => (none, c)
  | some tm =>
    (some tm,
     { c with
       actions_recv_message_buffer :=
         alistErase c.actions_pending_recv_message_id c.actions_recv_message_buffer
       actions_pending_recv_message_id :=
         wrapAdd c.actions_pending_recv_message_id 1
       latest_tick := tm.1 })

/-- Inner loop of `read_buffered_updates`: release every update whose
remote tick is strictly ahead of the running `latest_tick`, advancing it. -/
def releaseUpdates (latest : Tick) :
    List (Tick × EntityUpdatesMessage) → List (Tick × EntityUpdatesMessage) × Tick
  | [] => ([], latest)
  | (t, u) :: rest =>
    if wrapLt latest t then
      let p := releaseUpdates t rest
      ((t, u) :: p.1, p.2)
    else releaseUpdates latest rest

/-- Outer loop of `read_buffered_updates` over the ready entries of
`buffered_updates` in key order. -/
def releaseNested (latest : Tick) :
    List (Tick × List (Tick × EntityUpdatesMessage)) →
      List (Tick × EntityUpdatesMessage) × Tick
  | [] => ([], latest)
  | (_, ups) :: rest =>
    let p := releaseUpdates latest ups
    let q := releaseNested p.2 rest
    (p.1 ++ q.1, q.2)

/-- `GroupChannel::read_buffered_updates`: split off the entries whose
`last_action_tick` key has not been reached (`key >= latest_tick + 1`),
release from the remaining ones every update more recent than the running
`latest_tick`, and keep the not-ready entries buffered. -/
def GroupChannel.read_buffered_updates (c : GroupChannel) :
    List (Tick × EntityUpdatesMessage) × GroupChannel :=
  let cutoff := wrapAdd c.latest_tick 1
  let not_ready := c.buffered_updates.filter (fun e => !(wrapLt e.1 cutoff))
  let ready := c.buffered_updates.filter (fun e => wrapLt e.1 cutoff)
  let p := releaseNested c.latest_tick ready
  (p.1, { c with buffered_updates := not_ready, latest_tick := p.2 })

/-- The `while let Some(..) = self.read_action()` loop of
`GroupChannel::read_messages`, with an explicit step bound. By
`read_action_buffer_lt` every successful step shrinks the actions buffer,
so a bound equal to the buffer length never cuts the loop short: when it
reaches zero the buffer is empty and `read_action` returns `none` anyway. -/
def read_actions_go (fuel : Nat) (c : GroupChannel) :
    List (Tick × EntityActionMessage) × GroupChannel :=
  match fuel with
  | 0 => ([], c)
  | n + 1 =>
    match c.read_action with
    | (none, _) => ([], c)
    | (some tm, c') =>
      let p := read_actions_go n c'
      (tm :: p.1, p.2)

/-- The action-draining loop of `GroupChannel::read_messages`. -/
def GroupChannel.read_actions_loop (c : GroupChannel) :
    List (Tick × EntityActionMessage) × GroupChannel :=
  read_actions_go c.actions_recv_message_buffer.length c

/-- `GroupChannel::read_messages`: drain ready actions in order, then the
buffered updates that became ready; `None` when nothing was released. -/
def GroupChannel.read_messages (c : GroupChannel) :
    Option (List (Tick × ReplicationMessageData)) × GroupChannel :=
  let pa := c.read_actions_loop
  let pu := pa.2.read_buffered_updates
  let res := pa.1.map (fun p => (p.1, ReplicationMessageData.Actions p.2)) ++
    pu.1.map (fun p => (p.1, ReplicationMessageData.Updates p.2))
  (if res.isEmpty then none else some res, pu.2)

/-- `ReplicationReceiver::read_messages`: run every group channel's
`read_messages`, collecting the groups that released something. -/
def ReplicationReceiver.read_messages (r : ReplicationReceiver) :
    List (ReplicationGroupId × List (Tick × ReplicationMessageData)) ×
      ReplicationReceiver :=
  let stepped := r.group_channels.map (fun p => (p.1, p.2.read_messages))
  (stepped.filterMap (fun p => p.2.1.map (fun v => (p.1, v))),
   { r with group_channels := stepped.map (fun p => (p.1, p.2.2)) })

/-- Modelled from the spec: components carrying `Entity` fields are mapped
through the `RemoteEntityMap` (remote handle to local handle) when applied. -/
def Comp.map_entities (m : RemoteEntityMap) : Comp → Comp
  | .plain k v => .plain k v
  | .entityRef k e => .entityRef k ((m.get_local e).getD e)

/-- The slice of the bevy `World` that replication touches: spawned
entities with their components, plus a fresh-handle counter. -/
structure WorldModel where
  next_entity : Entity
  entities : List (Entity × List Comp)
deriving Repr, DecidableEq

/-- `world.spawn_empty()`: allocate a fresh local entity with no components. -/
def WorldModel.spawn_empty (w : WorldModel) : Entity × WorldModel :=
  (w.next_entity,
   { next_entity := w.next_entity + 1
     entities := w.entities ++ [(w.next_entity, [])] })

/-- `world.get_entity(e).is_some()`: does the entity exist in the world. -/
def WorldModel.contains (w : WorldModel) (e : Entity) : Bool :=
  (alistLookup e w.entities).isSome

/-- `world.despawn(e)`: remove the entity and its components. -/
def WorldModel.despawn (w : WorldModel) (e : Entity) : WorldModel :=
  { w with entities := alistErase e w.entities }

/-- Write a component into a component list, replacing any component of the
same kind. -/
def compSet (c : Comp) : List Comp → List Comp
  | [] => [c]
  | c' :: t => if c'.kind = c.kind then c :: t else c' :: compSet c t

/-- `component.insert(entity_mut)` / `component.update(entity_mut)`: write
the component onto the entity (no effect if the entity is absent). -/
def WorldModel.setComp (w : WorldModel) (e : Entity) (c : Comp) : WorldModel :=
  { w with
    entities := w.entities.map (fun p => if p.1 = e then (p.1, compSet c p.2) else p) }

/-- `kind.remove(entity_mut)`: drop the entity's component of that kind. -/
def WorldModel.removeComp (w : WorldModel) (e : Entity) (k : Nat) : WorldModel :=
  { w with
    entities := w.entities.map
      (fun p => if p.1 = e then (p.1, p.2.filter (fun c => c.kind ≠ k)) else p) }

/-- `RemoteEntityMap::get_by_remote(world, entity)`: the local handle, but
only when the local entity actually exists in the world. -/
def RemoteEntityMap.get_by_remote (m : RemoteEntityMap) (w : WorldModel)
    (remote : Entity) : Option Entity :=
  match m.get_local remote with
  | none => none
  | some l => if w.contains l then some l else none

/-- Events pushed to `ConnectionEvents` while applying a message. -/
inductive RepEvent where
  | spawnEv (e : Entity)
  | despawnEv (e : Entity)
  | insertEv (e : Entity) (kind : Nat)
  | removeEv (e : Entity) (kind : Nat)
  | updateEv (e : Entity) (kind : Nat)
deriving Repr, DecidableEq

/-- The receiver state threaded through `apply_world`: the entity maps and
the world. -/
structure ApplyState where
  map : RemoteEntityMap
  entity_to_group : List (Entity × ReplicationGroupId)
  world : WorldModel
deriving Repr, DecidableEq

/-- First pass of `apply_world` over an actions message, exactly as the
source: assert that no entity is both spawned and despawned (a failed
assertion is a panic, embedded as `none`), then for each entity flagged
`spawn`, record its group, and when it is not already mapped, spawn a fresh
local entity and record the pair. -/
def spawnPass (g : ReplicationGroupId) (s : ApplyState) :
    List (Entity × EntityActions) → Option (ApplyState × List RepEvent)
  | [] => some (s, [])
  | (e, a) :: rest =>
    if a.spawn && a.despawn then none
    else
      let se :=
        if a.spawn then
          let s' := { s with entity_to_group := alistInsert e g s.entity_to_group }
          match s'.map.get_local e with
          | some _ => (s', ([] : List RepEvent))
          | none =>
            let lw := s'.world.spawn_empty
            ({ s' with world := lw.2, map := s'.map.insert e lw.1 },
             [RepEvent.spawnEv lw.1])
        else (s, [])
      (spawnPass g se.1 rest).map (fun p => (p.1, se.2 ++ p.2))

/-- Second pass of `apply_world` over one entity's actions, exactly as the
source: a `despawn` removes the local entity from the world and both maps;
otherwise the inserts, then the removals, then the per-message component
updates are applied to the local entity, each component being
entity-mapped first. -/
def entityActionStep (s : ApplyState) (e : Entity) (a : EntityActions) :
    ApplyState × List RepEvent :=
  if a.despawn then
    match s.map.remove_by_remote e with
    | (some l, m') =>
      let w' := s.world.despawn l
      ({ s with
          map := m'
          world := w'
          entity_to_group := alistErase e s.entity_to_group },
       [RepEvent.despawnEv l])
    | (none, _) => (s, [])
  else
    match s.map.get_by_remote s.world e with
    | none => (s, [])
    | some l =>
      let wIns := a.insert.foldl
        (fun (acc : WorldModel × List RepEvent) c =>
          let c' := c.map_entities s.map
          (acc.1.setComp l c', acc.2 ++ [RepEvent.insertEv l c'.kind]))
        (s.world, [])
      let wRem := a.remove.foldl
        (fun (acc : WorldModel × List RepEvent) k =>
          (acc.1.removeComp l k, acc.2 ++ [RepEvent.removeEv l k]))
        wIns
      let wUpd := a.updates.foldl
        (fun (acc : WorldModel × List RepEvent) c =>
          let c' := c.map_entities s.map
          (acc.1.setComp l c', acc.2 ++ [RepEvent.updateEv l c'.kind]))
        wRem
      ({ s with world := wUpd.1 }, wUpd.2)

/-- Second pass of `apply_world` over the whole actions message, in
message order. -/
def actionsPass (s : ApplyState) :
    List (Entity × EntityActions) → ApplyState × List RepEvent
  | [] => (s, [])
  | (e, a) :: rest =>
    let p := entityActionStep s e a
    let q := actionsPass p.1 rest
    (q.1, p.2 ++ q.2)

/-- The `Actions` branch of `ReplicationReceiver::apply_world`: the spawn
pass over all entities, then the per-entity action pass. -/
def apply_world_actions (g : ReplicationGroupId) (s : ApplyState)
    (m : EntityActionMessage) : Option (ApplyState × List RepEvent) :=
  (spawnPass g s m.actions).map (fun p =>
    let q := actionsPass p.1 m.actions
    (q.1, p.2 ++ q.2))

/-- The `Updates` branch of `ReplicationReceiver::apply_world`: update each
entity that still exists locally; updates for missing entities are dropped. -/
def apply_world_updates (s : ApplyState) (m : EntityUpdatesMessage) :
    ApplyState × List RepEvent :=
  m.updates.foldl
    (fun (acc : ApplyState × List RepEvent) p =>
      match acc.1.map.get_by_remote acc.1.world p.1 with
      | none => acc
      | some l =>
        let wv := p.2.foldl
          (fun (a2 : WorldModel × List RepEvent) c =>
            (a2.1.setComp l c, a2.2 ++ [RepEvent.updateEv l c.kind]))
          (acc.1.world, [])
        ({ acc.1 with world := wv.1 }, acc.2 ++ wv.2))
    (s, [])

/-- `ReplicationReceiver::apply_world` on a replication payload. -/
def apply_world (g : ReplicationGroupId) (s : ApplyState)
    (data : ReplicationMessageData) : Option (ApplyState × List RepEvent) :=
  match data with
  | .Actions m => apply_world_actions g s m
  | .Updates m => some (apply_world_updates s m)

/-- Stated from the claim / spec sentence: the first pass of the apply
algorithm spawns (and records in the `RemoteEntityMap` and the
remote-entity-to-group map) a local entity for every entity flagged
`spawn` that is not already mapped, without touching any other action. -/
def spawnPassDescribed (g : ReplicationGroupId) (s : ApplyState) :
    List (Entity × EntityActions) → ApplyState × List RepEvent
  | [] => (s, [])
  | (e, a) :: rest =>
    let se :=
      if a.spawn then
        let s' := { s with entity_to_group := alistInsert e g s.entity_to_group }
        match s'.map.get_local e with
        | some _ => (s', ([] : List RepEvent))
        | none =>
          let lw := s'.world.spawn_empty
          ({ s' with world := lw.2, map := s'.map.insert e lw.1 },
           [RepEvent.spawnEv lw.1])
      else (s, [])
    let p := spawnPassDescribed g se.1 rest
    (p.1, se.2 ++ p.2)

/-- Stated from the claim / spec sentence: after all spawns, each entity is
processed in message order; a despawned entity is removed from the world
and from the maps, and otherwise its inserts, then removes, then component
updates are applied, entity-mapping component fields through the
`RemoteEntityMap`. -/
def entityStepDescribed (s : ApplyState) (e : Entity) (a : EntityActions) :
    ApplyState × List RepEvent :=
  if a.despawn then
    match s.map.remove_by_remote e with
    | (some l, m') =>
      let w' := s.world.despawn l
      ({ s with
          map := m'
          world := w'
          entity_to_group := alistErase e s.entity_to_group },
       [RepEvent.despawnEv l])
    | (none, _) => (s, [])
  else
    match s.map.get_by_remote s.world e with
    | none => (s, [])
    | some l =>
      let wIns := a.insert.foldl
        (fun (acc : WorldModel × List RepEvent) c =>
          let c' := c.map_entities s.map
          (acc.1.setComp l c', acc.2 ++ [RepEvent.insertEv l c'.kind]))
        (s.world, [])
      let wRem := a.remove.foldl
        (fun (acc : WorldModel × List RepEvent) k =>
          (acc.1.removeComp l k, acc.2 ++ [RepEvent.removeEv l k]))
        wIns
      let wUpd := a.updates.foldl
        (fun (acc : WorldModel × List RepEvent) c =>
          let c' := c.map_entities s.map
          (acc.1.setComp l c', acc.2 ++ [RepEvent.updateEv l c'.kind]))
        wRem
      ({ s with world := wUpd.1 }, wUpd.2)

/-- Stated from the claim / spec sentence: the second pass in message order. -/
def actionsPassDescribed (s : ApplyState) :
    List (Entity × EntityActions) → ApplyState × List RepEvent
  | [] => (s, [])
  | (e, a) :: rest =>
    let p := entityStepDescribed s e a
    let q := actionsPassDescribed p.1 rest
    (q.1, p.2 ++ q.2)

/-- Stated from the claim / spec sentence: apply an actions message in two
passes, all spawns strictly before any other per-entity processing. -/
def applyActionsTwoPass (g : ReplicationGroupId) (s : ApplyState)
    (m : EntityActionMessage) : ApplyState × List RepEvent :=
  let p := spawnPassDescribed g s m.actions
  let q := actionsPassDescribed p.1 m.actions
  (q.1, p.2 ++ q.2)

/-- One client-side entity together with the marker components that the
disconnect sweep queries (`Replicated`, `Predicted`, `Interpolated`). -/
structure TaggedEntity where
  id : Entity
  replicated : Bool
  predicted : Bool
  interpolated : Bool
deriving Repr, DecidableEq

/-- Does the disconnect sweep's query match this entity. -/
def TaggedEntity.isReceived (e : TaggedEntity) : Bool :=
  e.replicated || e.predicted || e.interpolated

/-- Events emitted by the client networking systems that the embedding
tracks: the client-side `DisconnectEvent` and the host-server-mode copy
sent to the server's event queue (a distinct event type). -/
inductive ClientEvent where
  | disconnectEv
  | serverDisconnectEv
deriving Repr, DecidableEq

/-- The slice of the client app state that `on_disconnect` touches:
the entities (with their markers), the sync manager's `synced` flag and
the host-server configuration bit. -/
structure ClientWorldState where
  entities : List TaggedEntity
  synced : Bool
  host_server : Bool
deriving Repr, DecidableEq

/-- `on_disconnect` (`src/lightyear/src/client/networking.rs`): despawn
every entity matching `Or<(With<Replicated>, With<Predicted>,
With<Interpolated>)>`, set `sync_manager.synced = false`, emit one
`DisconnectEvent` (plus, in host-server mode, one server-side
`DisconnectEvent` of the distinct server event type). Hierarchy is not
modelled, so `despawn_recursive` acts as `despawn`; the transport-level
`netcode.disconnect()` call is outside the embedding. -/
def on_disconnect (s : ClientWorldState) : ClientWorldState × List ClientEvent :=
  let s1 :=
    { s with
        entities := s.entities.filter (fun e => !e.isReceived)
        synced := false }
  (s1,
   [ClientEvent.disconnectEv] ++
     (if s.host_server then [ClientEvent.serverDisconnectEv] else []))

/-- Modelled from the spec: `ConnectionManager::new` (defined in
`client/connection.rs`, outside the excerpted sources) builds a fresh
manager from the latest config: a fresh replication receiver, unsynced
sync state, zeroed message sequence numbers and empty priority
accumulators. -/
structure ConnectionManager where
  receiver : ReplicationReceiver
  sync_synced : Bool
  next_send_message_id : MessageId
  priority_acc : List (ReplicationGroupId × Nat)
deriving Repr, DecidableEq

/-- Modelled from the spec: the freshly constructed manager. -/
def ConnectionManager.new : ConnectionManager :=
  { receiver := ReplicationReceiver.new
    sync_synced := false
    next_send_message_id := 0
    priority_acc := [] }

/-- The resources `rebuild_client_connection` reads and replaces: the
client config (opaque here), the `ConnectionManager` and the
`ClientConnection` (opaque transport state built from the config). -/
structure ClientResources where
  config : Nat
  connection_manager : ConnectionManager
  client_connection : Nat
deriving Repr, DecidableEq

/-- Modelled from the spec: `client_config.net.build_client()` builds the
transport-level connection from the config alone. -/
def buildClient (config : Nat) : Nat :=
  config

/-- `rebuild_client_connection`
(`src/lightyear/src/client/networking.rs`): replace the
`ConnectionManager` with a freshly constructed one and the
`ClientConnection` with one built from the latest config; nothing of the
previous resources survives. -/
def rebuild_client_connection (w : ClientResources) : ClientResources :=
  { w with
      connection_manager := ConnectionManager.new
      client_connection := buildClient w.config }

/-- Last element of a tick list, with a default for the empty list. -/
def lastD (d : Tick) : List Tick → Tick
  | [] => d
  | t :: r => lastD t r

/-- Adjacent strict increase (in the wrapped tick order) along a list,
starting from a given tick. -/
def chainLt (a : Tick) : List Tick → Bool
  | [] => true
  | t :: r => wrapLt a t && chainLt t r

/-- The `latest_tick` a receiver holds for a group (the default channel's
value when the group has no channel yet). -/
def latestTickOf (r : ReplicationReceiver) (g : ReplicationGroupId) : Tick :=
  ((alistLookup g r.group_channels).getD GroupChannel.default).latest_tick

/-- An actions message with no entities, sequence id 0. -/
def emptyActionsMsg : EntityActionMessage :=
  { sequence_id := 0, actions := [] }

/-- Tick-wrap scenario: the actions message sent at server tick 65530. -/
def wrapActionsMsg : EntityActionMessage :=
  { sequence_id := 0
    actions := [(7, { spawn := true, despawn := false, insert := [], remove := [], updates := [] })] }

/-- Tick-wrap scenario: the updates message sent at server tick 5, gated on
the action tick 65530. -/
def wrapUpdatesMsg : EntityUpdatesMessage :=
  { last_action_tick := 65530, updates := [(7, [Comp.plain 1 42])] }

/-- Tick-wrap scenario: a fresh receiver after receiving the actions
message at remote tick 65530 and then the updates message at remote tick 5. -/
def wrapScenarioReceiver : ReplicationReceiver :=
  (ReplicationReceiver.new.recv_message
      { group_id := 0, data := .Actions wrapActionsMsg } 65530).recv_message
    { group_id := 0, data := .Updates wrapUpdatesMsg } 5

/-- A channel whose `latest_tick` is already at 10 while an action received
at the earlier remote tick 5 is still buffered at the pending cursor. -/
def lateActionChannel : GroupChannel :=
  { actions_pending_recv_message_id := 0
    actions_recv_message_buffer := [(0, (5, emptyActionsMsg))]
    buffered_updates := []
    latest_tick := 10 }

/-- A buffered update gated on action tick 3 (reached at `latest_tick` 10). -/
def gateReadyUpd : EntityUpdatesMessage :=
  { last_action_tick := 3, updates := [] }

/-- A buffered update gated on action tick 20 (not reached at 10). -/
def gateLaterUpd : EntityUpdatesMessage :=
  { last_action_tick := 20, updates := [] }

/-- A channel holding one ready and one not-yet-ready buffered update. -/
def gateWitnessChannel : GroupChannel :=
  { actions_pending_recv_message_id := 0
    actions_recv_message_buffer := []
    buffered_updates := [(3, [(4, gateReadyUpd)]), (20, [(21, gateLaterUpd)])]
    latest_tick := 10 }

/-- In-sequence messages 0 and 1 for the sequencing witness. -/
def seqMsg0 : EntityActionMessage :=
  { sequence_id := 0, actions := [] }

/-- Second in-sequence message for the sequencing witness. -/
def seqMsg1 : EntityActionMessage :=
  { sequence_id := 1, actions := [] }

/-- A channel with two consecutive action messages buffered. -/
def seqWitnessChannel : GroupChannel :=
  { actions_pending_recv_message_id := 0
    actions_recv_message_buffer := [(0, (2, seqMsg0)), (1, (3, seqMsg1))]
    buffered_updates := []
    latest_tick := 0 }

/-- A channel that has already advanced to pending id 5 and latest tick 9. -/
def staleWitnessChannel : GroupChannel :=
  { actions_pending_recv_message_id := 5
    actions_recv_message_buffer := []
    buffered_updates := []
    latest_tick := 9 }

/-- A receiver holding `staleWitnessChannel` for group 0. -/
def staleWitnessReceiver : ReplicationReceiver :=
  { ReplicationReceiver.new with group_channels := [(0, staleWitnessChannel)] }

/-- An empty apply state for the two-pass witness. -/
def applyWitnessState : ApplyState :=
  { map := { remote_to_local := [], local_to_remote := [] }
    entity_to_group := []
    world := { next_entity := 100, entities := [] } }

/-- A spawn-and-insert actions message for the two-pass witness; the
inserted component carries an `Entity` field referring to the spawned
remote entity itself. -/
def applyWitnessMsg : EntityActionMessage :=
  { sequence_id := 0
    actions := [(7, { spawn := true, despawn := false
                      insert := [Comp.entityRef 2 7], remove := [], updates := [] })] }

/-- A receiver carrying session state (cursor 1000, latest tick 500). -/
def dirtyReceiver : ReplicationReceiver :=
  { ReplicationReceiver.new with
      group_channels :=
        [(0, { actions_pending_recv_message_id := 1000
               actions_recv_message_buffer := []
               buffered_updates := []
               latest_tick := 500 })] }

/-- Client resources mid-session, before a disconnect / reconnect. -/
def dirtyResources : ClientResources :=
  { config := 3
    connection_manager :=
      { receiver := dirtyReceiver
        sync_synced := true
        next_send_message_id := 1000
        priority_acc := [(1, 5)] }
    client_connection := 7 }

/-- Looking up a key that is bound yields a member of the list. -/
theorem alistLookup_mem {α β : Type} [DecidableEq α] {k : α} {v : β}
    {l : List (α × β)} (h : alistLookup k l = some v) : (k, v) ∈ l := by
  induction l with
  | nil => simp [alistLookup] at h
  | cons hd tl ih =>
    obtain ⟨k', v'⟩ := hd
    by_cases hk : k' = k
    · subst hk
      simp [alistLookup] at h
      subst h
      exact List.mem_cons_self _ _
    · simp only [alistLookup, hk, if_false] at h
      exact List.mem_cons_of_mem _ (ih h)

/-- Re-inserting the value a key already holds leaves the list unchanged. -/
theorem alistInsert_lookup_id {α β : Type} [DecidableEq α] {k : α} {v : β}
    {l : List (α × β)} (h : alistLookup k l = some v) : alistInsert k v l = l := by
  induction l with
  | nil => simp [alistLookup] at h
  | cons hd tl ih =>
    obtain ⟨k', v'⟩ := hd
    by_cases hk : k' = k
    · subst hk
      simp [alistLookup] at h
      simp [alistInsert, h]
    · simp only [alistLookup, hk, if_false] at h
      simp [alistInsert, hk, ih h]

/-- Lookup after insertion at the same key. -/
theorem alistLookup_insert_self {α β : Type} [DecidableEq α] (k : α) (v : β)
    (l : List (α × β)) : alistLookup k (alistInsert k v l) = some v := by
  induction l with
  | nil => simp [alistInsert, alistLookup]
  | cons hd tl ih =>
    obtain ⟨k', v'⟩ := hd
    by_cases hk : k' = k
    · simp [alistInsert, alistLookup, hk]
    · simp [alistInsert, alistLookup, hk, ih]

/-- Lookup after insertion at a different key. -/
theorem alistLookup_insert_ne {α β : Type} [DecidableEq α] {g k : α} (v : β)
    (l : List (α × β)) (h : g ≠ k) :
    alistLookup g (alistInsert k v l) = alistLookup g l := by
  have hk : ¬k = g := fun he => h he.symm
  induction l with
  | nil => simp [alistInsert, alistLookup, hk]
  | cons hd tl ih =>
    obtain ⟨k', v'⟩ := hd
    by_cases hkk : k' = k
    · subst hkk
      simp [alistInsert, alistLookup, hk]
    · by_cases hkg : k' = g <;> simp [alistInsert, alistLookup, hkk, hkg, h, ih]

/-- Erasing a bound key strictly shrinks the list (the actions buffer
shrinks on every successful `read_action`, so the loop bound in
`read_actions_go` is never the reason the drain loop stops). -/
theorem alistErase_length_lt {α β : Type} [DecidableEq α] (k : α) (v : β)
    (l : List (α × β)) (h : alistLookup k l = some v) :
    (alistErase k l).length < l.length := by
  induction l with
  | nil => simp [alistLookup] at h
  | cons hd tl ih =>
    obtain ⟨k', v'⟩ := hd
    by_cases hk : k' = k
    · simp [alistErase, hk]
    · simp only [alistLookup, hk, if_false] at h
      simp only [alistErase, hk, if_false, List.length_cons]
      exact Nat.succ_lt_succ (ih h)

/-- A successful `read_action` shrinks the actions buffer. -/
theorem read_action_buffer_lt (c : GroupChannel) (tm : Tick × EntityActionMessage)
    (c' : GroupChannel) (h : c.read_action = (some tm, c')) :
    c'.actions_recv_message_buffer.length < c.actions_recv_message_buffer.length := by
  unfold GroupChannel.read_action at h
  cases hl : alistLookup c.actions_pending_recv_message_id c.actions_recv_message_buffer with
  | none => rw [hl] at h; simp at h
  | some tm' =>
    rw [hl] at h
    simp only [Prod.mk.injEq, Option.some.injEq] at h
    obtain ⟨_, hc⟩ := h
    subst hc
    exact alistErase_length_lt _ _ _ hl

/-- A key below the `split_off` cutoff `latest + 1` is at or before `latest`. -/
theorem wrapLt_cutoff_imp_le (k l : Nat) (h : wrapLt k (wrapAdd l 1) = true) :
    wrapLe k l = true := by
  simp only [wrapLt, wrapLe, wrapDiff, wrapAdd, Bool.or_eq_true, decide_eq_true_eq] at *
  omega

/-- A key strictly after `latest` is at or past the `split_off` cutoff. -/
theorem wrapLt_imp_not_cutoff (l k : Nat) (h : wrapLt l k = true) :
    wrapLt k (wrapAdd l 1) = false := by
  simp only [wrapLt, wrapDiff, wrapAdd, decide_eq_true_eq] at *
  simp only [decide_eq_false_iff_not]
  omega

/-- Buffering a message never changes a channel's `latest_tick`. -/
theorem recvData_latest (c : GroupChannel) (d : ReplicationMessageData) (t : Tick) :
    (c.recvData d t).latest_tick = c.latest_tick := by
  cases d <;> simp only [GroupChannel.recvData] <;> split <;> rfl

/-- C4: tick comparison and the receiver's release logic follow modular
16-bit signed-wrap ordering across the wrap point: after an Actions
message at remote tick 65530 and an Updates message at remote tick 5 with
`last_action_tick` 65530, `read_messages` returns both in that order and
the channel's `latest_tick` ends at `Tick(5)`. -/
theorem tick_wrap_scenario :
    wrapScenarioReceiver.read_messages.1 =
      [(0, [(65530, .Actions wrapActionsMsg), (5, .Updates wrapUpdatesMsg)])] ∧
    latestTickOf wrapScenarioReceiver.read_messages.2 0 = 5 := by
  decide

/-- C10: a group channel created on first contact starts at
`latest_tick = Tick(0)`, so `recv_message` for an Updates message to a
fresh group inserts a default channel and silently drops the update
whenever its remote tick is at or before `Tick(0)` in the wrapped order:
nothing is buffered. -/
theorem fresh_channel_drops_initial_updates (g : ReplicationGroupId) (t : Tick)
    (m : EntityUpdatesMessage) (h : wrapLe t 0 = true) :
    ReplicationReceiver.new.recv_message { group_id := g, data := .Updates m } t =
      { ReplicationReceiver.new with group_channels := [(g, GroupChannel.default)] } := by
  simp [ReplicationReceiver.recv_message, ReplicationReceiver.new,
    GroupChannel.recvData, GroupChannel.default, alistLookup, alistInsert, h]

/-- Witness for C10 at remote tick 65000 (wrapped-before `Tick(0)`). -/
theorem fresh_channel_drops_initial_updates_w :
    wrapLe 65000 0 = true ∧
    ReplicationReceiver.new.recv_message
        { group_id := 0, data := .Updates { last_action_tick := 0, updates := [] } } 65000 =
      { ReplicationReceiver.new with group_channels := [(0, GroupChannel.default)] } :=
  ⟨by decide, fresh_channel_drops_initial_updates 0 65000 _ (by decide)⟩

/-- C8: entering the Disconnected state despawns every entity carrying a
`Replicated`, `Predicted` or `Interpolated` marker, clears the sync
manager's `synced` flag and emits exactly one client `DisconnectEvent`. -/
theorem on_disconnect_cleanup (s : ClientWorldState) :
    (on_disconnect s).1.entities.all (fun e => !e.isReceived) = true ∧
    (on_disconnect s).1.synced = false ∧
    (on_disconnect s).2.count ClientEvent.disconnectEv = 1 := by
  refine ⟨?_, rfl, ?_⟩
  · simp only [on_disconnect, List.all_eq_true, List.mem_filter]
    exact fun e he => he.2
  · cases hs : s.host_server <;> simp [on_disconnect, hs]

/-- C5: `recv_message` drops stale messages atomically: an Actions message
whose sequence id is wrapped-before the group's cursor, or an Updates
message whose remote tick is wrapped-at-or-before the group's
`latest_tick`, leaves the receiver completely unchanged. -/
theorem recv_message_drops_stale (r : ReplicationReceiver) (g : ReplicationGroupId)
    (c : GroupChannel) (m : EntityActionMessage) (mu : EntityUpdatesMessage) (t : Tick)
    (hc : alistLookup g r.group_channels = some c) :
    (wrapLt m.sequence_id c.actions_pending_recv_message_id = true →
      r.recv_message { group_id := g, data := .Actions m } t = r) ∧
    (wrapLe t c.latest_tick = true →
      r.recv_message { group_id := g, data := .Updates mu } t = r) := by
  constructor <;> intro h <;>
    simp only [ReplicationReceiver.recv_message, hc, Option.getD_some,
      GroupChannel.recvData, h, if_true] <;>
    rw [alistInsert_lookup_id hc]

/-- Witness for C5: a stale Actions message (sequence id 4 against cursor
5) leaves the receiver untouched. -/
theorem recv_message_drops_stale_w :
    alistLookup 0 staleWitnessReceiver.group_channels = some staleWitnessChannel ∧
    wrapLt 4 5 = true ∧
    staleWitnessReceiver.recv_message
        { group_id := 0, data := .Actions { sequence_id := 4, actions := [] } } 9 =
      staleWitnessReceiver :=
  ⟨by decide, by decide,
   (recv_message_drops_stale staleWitnessReceiver 0 staleWitnessChannel
      { sequence_id := 4, actions := [] } { last_action_tick := 0, updates := [] } 9
      (by decide)).1 (by decide)⟩

/-- Every update released by the inner release loop comes from its input. -/
theorem releaseUpdates_subset (l : Tick) (ups : List (Tick × EntityUpdatesMessage))
    (p : Tick × EntityUpdatesMessage) (hp : p ∈ (releaseUpdates l ups).1) : p ∈ ups := by
  induction ups generalizing l with
  | nil => simp [releaseUpdates] at hp
  | cons hd rest ih =>
    obtain ⟨t, u⟩ := hd
    by_cases hlt : wrapLt l t = true
    · simp only [releaseUpdates, hlt, if_true] at hp
      rcases List.mem_cons.mp hp with hp | hp
      · exact hp ▸ List.mem_cons_self _ _
      · exact List.mem_cons_of_mem _ (ih t hp)
    · simp only [releaseUpdates, hlt, if_false] at hp
      exact List.mem_cons_of_mem _ (ih l hp)

/-- Every update released by the outer release loop comes from one of the
entries it walked. -/
theorem releaseNested_subset (l : Tick)
    (entries : List (Tick × List (Tick × EntityUpdatesMessage)))
    (p : Tick × EntityUpdatesMessage) (hp : p ∈ (releaseNested l entries).1) :
    ∃ e ∈ entries, p ∈ e.2 := by
  induction entries generalizing l with
  | nil => simp [releaseNested] at hp
  | cons hd rest ih =>
    obtain ⟨k, ups⟩ := hd
    simp only [releaseNested, List.mem_append] at hp
    rcases hp with hp | hp
    · exact ⟨(k, ups), List.mem_cons_self _ _, releaseUpdates_subset _ _ _ hp⟩
    · obtain ⟨e, he, hpe⟩ := ih _ hp
      exact ⟨e, List.mem_cons_of_mem _ he, hpe⟩

/-- C1: `read_buffered_updates` releases only updates buffered under a
`last_action_tick` key at or before the channel's `latest_tick`, and every
entry keyed strictly after `latest_tick` stays in `buffered_updates`. -/
theorem read_buffered_updates_release_gate (c : GroupChannel) :
    (∀ p ∈ c.read_buffered_updates.1,
      ∃ e ∈ c.buffered_updates, p ∈ e.2 ∧ wrapLe e.1 c.latest_tick = true) ∧
    (∀ q ∈ c.buffered_updates, wrapLt c.latest_tick q.1 = true →
      q ∈ c.read_buffered_updates.2.buffered_updates) := by
  constructor
  · intro p hp
    simp only [GroupChannel.read_buffered_updates] at hp
    obtain ⟨e, he, hpe⟩ := releaseNested_subset _ _ _ hp
    rw [List.mem_filter] at he
    exact ⟨e, he.1, hpe, wrapLt_cutoff_imp_le _ _ he.2⟩
  · intro q hq hlt
    simp only [GroupChannel.read_buffered_updates]
    rw [List.mem_filter]
    exact ⟨hq, by rw [wrapLt_imp_not_cutoff _ _ hlt]; rfl⟩

/-- Witness for C1: the entry gated on action tick 20 stays buffered while
`latest_tick` is 10. -/
theorem read_buffered_updates_release_gate_w :
    (20, [(21, gateLaterUpd)]) ∈ gateWitnessChannel.buffered_updates ∧
    wrapLt gateWitnessChannel.latest_tick 20 = true ∧
    (20, [(21, gateLaterUpd)]) ∈
      gateWitnessChannel.read_buffered_updates.2.buffered_updates :=
  ⟨by decide, by decide,
   (read_buffered_updates_release_gate gateWitnessChannel).2
     (20, [(21, gateLaterUpd)]) (by decide) (by decide)⟩

/-- Chains concatenate when the second starts at the first's last element. -/
theorem chainLt_append (a : Tick) (xs ys : List Tick) (hx : chainLt a xs = true)
    (hy : chainLt (lastD a xs) ys = true) : chainLt a (xs ++ ys) = true := by
  induction xs generalizing a with
  | nil => exact hy
  | cons t r ih =>
    simp only [chainLt, Bool.and_eq_true] at hx
    simp only [List.cons_append, chainLt, Bool.and_eq_true]
    exact ⟨hx.1, ih t hx.2 hy⟩

/-- Last-element of a concatenation. -/
theorem lastD_append (a : Tick) (xs ys : List Tick) :
    lastD a (xs ++ ys) = lastD (lastD a xs) ys := by
  induction xs generalizing a with
  | nil => rfl
  | cons t r ih => simpa [lastD] using ih t

/-- The inner release loop emits ticks in a strictly increasing wrapped
chain from the running `latest_tick`, which ends at the last emitted tick. -/
theorem releaseUpdates_chain (l : Tick) (ups : List (Tick × EntityUpdatesMessage)) :
    chainLt l ((releaseUpdates l ups).1.map Prod.fst) = true ∧
    (releaseUpdates l ups).2 = lastD l ((releaseUpdates l ups).1.map Prod.fst) := by
  induction ups generalizing l with
  | nil => exact ⟨rfl, rfl⟩
  | cons hd rest ih =>
    obtain ⟨t, u⟩ := hd
    simp only [releaseUpdates]
    split
    · rename_i hlt
      simp only [List.map_cons, chainLt, Bool.and_eq_true, lastD]
      exact ⟨⟨hlt, (ih t).1⟩, (ih t).2⟩
    · exact ih l

/-- The outer release loop emits ticks in a strictly increasing wrapped
chain from the channel's `latest_tick`, which ends at the last emitted one. -/
theorem releaseNested_chain (l : Tick)
    (entries : List (Tick × List (Tick × EntityUpdatesMessage))) :
    chainLt l ((releaseNested l entries).1.map Prod.fst) = true ∧
    (releaseNested l entries).2 = lastD l ((releaseNested l entries).1.map Prod.fst) := by
  induction entries generalizing l with
  | nil => exact ⟨rfl, rfl⟩
  | cons hd rest ih =>
    obtain ⟨k, ups⟩ := hd
    simp only [releaseNested, List.map_append]
    have hu := releaseUpdates_chain l ups
    have hn := ih (releaseUpdates l ups).2
    rw [lastD_append]
    constructor
    · apply chainLt_append _ _ _ hu.1
      rw [← hu.2]
      exact hn.1
    · rw [← hu.2]
      exact hn.2

/-- Counterexample to C2 as stated: `read_action` assigns `latest_tick :=
action tick` rather than the max, so applying a buffered action with remote
tick 5 while `latest_tick` is already 10 moves `latest_tick` backwards. -/
theorem read_action_moves_latest_back :
    lateActionChannel.latest_tick = 10 ∧
    lateActionChannel.read_action.2.latest_tick = 5 ∧
    wrapLt lateActionChannel.read_action.2.latest_tick
      lateActionChannel.latest_tick = true := by
  decide

/-- C2 (amended): `recv_message` never changes a group's `latest_tick`;
`read_buffered_updates` only moves `latest_tick` forward, along a chain of
wrapped strict increases through the released update ticks, ending at the
last released tick; but `read_action` sets `latest_tick` to the released
action's remote tick unconditionally (not to the max with the current
value), so it is non-decreasing only when that tick is not wrapped-before
the current `latest_tick`. -/
theorem latest_tick_monotonicity_amended :
    (∀ (r : ReplicationReceiver) (msg : ReplicationMessage) (t : Tick)
      (g : ReplicationGroupId),
      latestTickOf (r.recv_message msg t) g = latestTickOf r g) ∧
    (∀ c : GroupChannel,
      chainLt c.latest_tick (c.read_buffered_updates.1.map Prod.fst) = true ∧
      c.read_buffered_updates.2.latest_tick =
        lastD c.latest_tick (c.read_buffered_updates.1.map Prod.fst)) ∧
    (∀ (c : GroupChannel) (tm : Tick × EntityActionMessage),
      c.read_action.1 = some tm → c.read_action.2.latest_tick = tm.1) := by
  refine ⟨?_, ?_, ?_⟩
  · intro r msg t g
    simp only [ReplicationReceiver.recv_message, latestTickOf]
    by_cases hg : g = msg.group_id
    · subst hg
      rw [alistLookup_insert_self]
      simp [recvData_latest]
    · rw [alistLookup_insert_ne _ _ hg]
  · intro c
    simp only [GroupChannel.read_buffered_updates]
    exact releaseNested_chain _ _
  · intro c tm h
    cases hl : alistLookup c.actions_pending_recv_message_id c.actions_recv_message_buffer with
    | none =>
      unfold GroupChannel.read_action at h
      rw [hl] at h
      simp at h
    | some tm' =>
      unfold GroupChannel.read_action at h ⊢
      rw [hl] at h ⊢
      simp only [Option.some.injEq] at h
      subst h
      rfl

/-- Witness for C2 (amended): draining the buffered action at remote tick 2
sets `latest_tick` to 2. -/
theorem latest_tick_monotonicity_amended_w :
    seqWitnessChannel.read_action.1 = some (2, seqMsg0) ∧
    seqWitnessChannel.read_action.2.latest_tick = 2 :=
  ⟨by decide,
   latest_tick_monotonicity_amended.2.2 seqWitnessChannel (2, seqMsg0) (by decide)⟩

/-- Erasing a key keeps every remaining binding a member of the original. -/
theorem alistErase_subset {α β : Type} [DecidableEq α] (k : α)
    (l : List (α × β)) (q : α × β) (hq : q ∈ alistErase k l) : q ∈ l := by
  induction l with
  | nil => simp [alistErase] at hq
  | cons hd tl ih =>
    obtain ⟨k', v'⟩ := hd
    by_cases hk : k' = k
    · simp only [alistErase, hk, if_true] at hq
      exact List.mem_cons_of_mem _ hq
    · simp only [alistErase, hk, if_false] at hq
      rcases List.mem_cons.mp hq with hq | hq
      · exact hq ▸ List.mem_cons_self _ _
      · exact List.mem_cons_of_mem _ (ih hq)

/-- Wrapping addition composes. -/
theorem wrapAdd_wrapAdd (a m n : Nat) : wrapAdd (wrapAdd a m) n = wrapAdd a (m + n) := by
  simp [wrapAdd, Nat.mod_add_mod, Nat.add_assoc]

/-- The action-draining loop releases exactly the run of consecutive
sequence ids starting at the pending cursor, and leaves the cursor one
past the last released id, provided every buffered message is keyed by its
own sequence id (which `recv_message` guarantees) and the cursor is a
16-bit value. -/
theorem read_actions_go_spec (fuel : Nat) :
    ∀ c : GroupChannel,
    c.actions_pending_recv_message_id < 65536 →
    (∀ q ∈ c.actions_recv_message_buffer, q.2.2.sequence_id = q.1) →
    ((read_actions_go fuel c).1.map (fun p => p.2.sequence_id) =
      (List.range (read_actions_go fuel c).1.length).map
        (fun i => wrapAdd c.actions_pending_recv_message_id i)) ∧
    (read_actions_go fuel c).2.actions_pending_recv_message_id =
      wrapAdd c.actions_pending_recv_message_id (read_actions_go fuel c).1.length := by
  induction fuel with
  | zero =>
    intro c hn hk
    refine ⟨rfl, ?_⟩
    simp [read_actions_go, wrapAdd, Nat.mod_eq_of_lt hn]
  | succ n ih =>
    intro c hn hk
    cases hl : alistLookup c.actions_pending_recv_message_id c.actions_recv_message_buffer with
    | none =>
      have hra : c.read_action = (none, c) := by
        unfold GroupChannel.read_action
        rw [hl]
      refine ⟨?_, ?_⟩ <;>
        simp [read_actions_go, hra, wrapAdd, Nat.mod_eq_of_lt hn]
    | some tm =>
      have hra : c.read_action =
          (some tm,
           { c with
               actions_recv_message_buffer :=
                 alistErase c.actions_pending_recv_message_id c.actions_recv_message_buffer
               actions_pending_recv_message_id :=
                 wrapAdd c.actions_pending_recv_message_id 1
               latest_tick := tm.1 }) := by
        unfold GroupChannel.read_action
        rw [hl]
      have hn' : wrapAdd c.actions_pending_recv_message_id 1 < 65536 :=
        Nat.mod_lt _ (by omega)
      obtain ⟨ihm, ihp⟩ := ih
        { c with
            actions_recv_message_buffer :=
              alistErase c.actions_pending_recv_message_id c.actions_recv_message_buffer
            actions_pending_recv_message_id :=
              wrapAdd c.actions_pending_recv_message_id 1
            latest_tick := tm.1 }
        hn' (fun q hq => hk q (alistErase_subset _ _ q hq))
      have htm : tm.2.sequence_id = c.actions_pending_recv_message_id :=
        hk (c.actions_pending_recv_message_id, tm) (alistLookup_mem hl)
      have h0 : wrapAdd c.actions_pending_recv_message_id 0 =
          c.actions_pending_recv_message_id := by
        simp [wrapAdd, Nat.mod_eq_of_lt hn]
      refine ⟨?_, ?_⟩
      · simp only [read_actions_go, hra, List.map_cons, List.length_cons]
        rw [ihm, htm, List.range_succ_eq_map, List.map_cons, List.map_map, h0]
        congr 1
        simp only [Function.comp, wrapAdd_wrapAdd, Nat.succ_eq_add_one]
        simp [Nat.add_comm]
      · simp only [read_actions_go, hra, List.length_cons]
        rw [ihp, wrapAdd_wrapAdd, Nat.add_comm]

/-- C3: per group, actions are released gap-free in strictly increasing
sequence order: a `read_messages` pass releases exactly the ids
`cursor, cursor+1, ...` and advances the cursor by the number released;
`read_action` itself only ever releases the message buffered at the
pending cursor and then increments it by one. -/
theorem actions_released_in_sequence (c : GroupChannel)
    (hn : c.actions_pending_recv_message_id < 65536)
    (hk : ∀ q ∈ c.actions_recv_message_buffer, q.2.2.sequence_id = q.1) :
    (c.read_actions_loop.1.map (fun p => p.2.sequence_id) =
      (List.range c.read_actions_loop.1.length).map
        (fun i => wrapAdd c.actions_pending_recv_message_id i)) ∧
    (c.read_actions_loop.2.actions_pending_recv_message_id =
      wrapAdd c.actions_pending_recv_message_id c.read_actions_loop.1.length) ∧
    (∀ tm, c.read_action.1 = some tm →
      alistLookup c.actions_pending_recv_message_id c.actions_recv_message_buffer =
        some tm ∧
      c.read_action.2.actions_pending_recv_message_id =
        wrapAdd c.actions_pending_recv_message_id 1) := by
  have hmain := read_actions_go_spec c.actions_recv_message_buffer.length c hn hk
  refine ⟨hmain.1, hmain.2, ?_⟩
  intro tm h
  cases hl : alistLookup c.actions_pending_recv_message_id c.actions_recv_message_buffer with
  | none =>
    unfold GroupChannel.read_action at h
    rw [hl] at h
    simp at h
  | some tm' =>
    unfold GroupChannel.read_action at h ⊢
    rw [hl] at h ⊢
    simp only [Option.some.injEq] at h
    subst h
    exact ⟨rfl, rfl⟩

/-- Witness for C3: draining two buffered messages releases ids 0 then 1. -/
theorem actions_released_in_sequence_w :
    seqWitnessChannel.actions_pending_recv_message_id < 65536 ∧
    (∀ q ∈ seqWitnessChannel.actions_recv_message_buffer, q.2.2.sequence_id = q.1) ∧
    seqWitnessChannel.read_actions_loop.1.map (fun p => p.2.sequence_id) =
      (List.range seqWitnessChannel.read_actions_loop.1.length).map
        (fun i => wrapAdd seqWitnessChannel.actions_pending_recv_message_id i) :=
  ⟨by decide, by decide,
   (actions_released_in_sequence seqWitnessChannel (by decide) (by decide)).1⟩

/-- The per-entity second-pass step of the source coincides with the
description stated from the spec sentence. -/
theorem entity_step_eq : entityActionStep = entityStepDescribed := rfl

/-- The whole second pass coincides with the described one. -/
theorem actionsPass_eq (l : List (Entity × EntityActions)) :
    ∀ s : ApplyState, actionsPass s l = actionsPassDescribed s l := by
  induction l with
  | nil => intro s; rfl
  | cons hd rest ih =>
    intro s
    obtain ⟨e, a⟩ := hd
    simp only [actionsPass, actionsPassDescribed, entity_step_eq, ih]

/-- When no entity carries both flags, the source's first pass succeeds and
computes the described spawn pass. -/
theorem spawnPass_some (g : ReplicationGroupId) (l : List (Entity × EntityActions)) :
    ∀ s : ApplyState, (∀ p ∈ l, (!(p.2.spawn && p.2.despawn)) = true) →
    spawnPass g s l = some (spawnPassDescribed g s l) := by
  induction l with
  | nil => intro s _; rfl
  | cons hd rest ih =>
    intro s h
    obtain ⟨e, a⟩ := hd
    have hhd : (a.spawn && a.despawn) = false := by
      have hx := h (e, a) (List.mem_cons_self _ _)
      rw [Bool.not_eq_true'] at hx
      exact hx
    have htl : ∀ p ∈ rest, (!(p.2.spawn && p.2.despawn)) = true :=
      fun p hp => h p (List.mem_cons_of_mem _ hp)
    simp only [spawnPass, spawnPassDescribed, hhd, Bool.false_eq_true, if_false]
    rw [ih _ htl]
    rfl

/-- C6: for an actions message in which no entity is flagged both spawn and
despawn, `apply_world` proceeds in two passes: it first spawns and records
a local entity for every (unmapped) spawn-flagged entity, and only then
processes each entity in message order — despawn removing it from world
and maps, otherwise inserts, then removes, then component updates, with
entity fields mapped through the `RemoteEntityMap`. -/
theorem apply_world_two_pass (g : ReplicationGroupId) (s : ApplyState)
    (m : EntityActionMessage)
    (h : ∀ p ∈ m.actions, (!(p.2.spawn && p.2.despawn)) = true) :
    apply_world_actions g s m = some (applyActionsTwoPass g s m) := by
  unfold apply_world_actions applyActionsTwoPass
  rw [spawnPass_some g m.actions s h]
  simp only [Option.map_some', actionsPass_eq]

/-- Witness for C6: a spawn-with-self-reference message applies and equals
the two-pass description. -/
theorem apply_world_two_pass_w :
    (∀ p ∈ applyWitnessMsg.actions, (!(p.2.spawn && p.2.despawn)) = true) ∧
    apply_world_actions 0 applyWitnessState applyWitnessMsg =
      some (applyActionsTwoPass 0 applyWitnessState applyWitnessMsg) :=
  ⟨by decide, apply_world_two_pass 0 applyWitnessState applyWitnessMsg (by decide)⟩

/-- The first pass succeeds exactly when no entity carries both flags. -/
theorem spawnPass_isSome (g : ReplicationGroupId) (l : List (Entity × EntityActions)) :
    ∀ s : ApplyState,
    (spawnPass g s l).isSome = l.all (fun p => !(p.2.spawn && p.2.despawn)) := by
  induction l with
  | nil => intro s; rfl
  | cons hd rest ih =>
    intro s
    obtain ⟨e, a⟩ := hd
    by_cases hc : (a.spawn && a.despawn) = true
    · have hnone : spawnPass g s ((e, a) :: rest) = none := by
        simp [spawnPass, hc]
      rw [hnone, List.all_cons, hc]
      rfl
    · have hcf : (a.spawn && a.despawn) = false := Bool.eq_false_iff.mpr hc
      simp only [spawnPass, hcf, Bool.false_eq_true, if_false, Option.isSome_map',
        List.all_cons, Bool.not_false, Bool.true_and]
      exact ih _

/-- C7: the `assert!(!(actions.spawn && actions.despawn))` at the start of
`apply_world`'s per-entity loop holds, and `apply_world` does not panic,
exactly when no entity of the message carries both the spawn and despawn
flags; a message with such an entity aborts (panics). -/
theorem apply_world_spawn_despawn_assert (g : ReplicationGroupId)
    (s : ApplyState) (m : EntityActionMessage) :
    (apply_world_actions g s m).isSome =
      m.actions.all (fun p => !(p.2.spawn && p.2.despawn)) := by
  unfold apply_world_actions
  rw [Option.isSome_map']
  exact spawnPass_isSome g m.actions s

/-- C9: entering Connecting rebuilds the `ConnectionManager` and
`ClientConnection` from the latest config: after the rebuild the receiver
is pristine (no group channel survives), a first-contact channel starts at
`MessageId(0)` / `Tick(0)`, and the new session's first action message
(sequence id 0) is accepted and released by `read_action`. -/
theorem rebuild_fresh_session (w : ClientResources) (g : ReplicationGroupId)
    (t : Tick) (m : EntityActionMessage) (h : m.sequence_id = 0) :
    (rebuild_client_connection w).connection_manager.receiver =
      ReplicationReceiver.new ∧
    GroupChannel.default.actions_pending_recv_message_id = 0 ∧
    GroupChannel.default.latest_tick = 0 ∧
    ((alistLookup g
        (((rebuild_client_connection w).connection_manager.receiver.recv_message
            { group_id := g, data := .Actions m } t).group_channels)).getD
      GroupChannel.default).read_action.1 = some (t, m) := by
  refine ⟨rfl, rfl, rfl, ?_⟩
  have h00 : wrapLt 0 0 = false := by decide
  simp [rebuild_client_connection, ConnectionManager.new, ReplicationReceiver.new,
    ReplicationReceiver.recv_message, GroupChannel.recvData, GroupChannel.default,
    GroupChannel.read_action, alistLookup, alistInsert, h, h00]

/-- Witness for C9: after a dirty session is rebuilt, the first message of
the new session (sequence id 0, remote tick 1) is released. -/
theorem rebuild_fresh_session_w :
    ({ sequence_id := 0, actions := [] } : EntityActionMessage).sequence_id = 0 ∧
    ((alistLookup 0
        (((rebuild_client_connection dirtyResources).connection_manager.receiver.recv_message
            { group_id := 0, data := .Actions { sequence_id := 0, actions := [] } }
            1).group_channels)).getD
      GroupChannel.default).read_action.1 =
      some (1, { sequence_id := 0, actions := [] }) :=
  ⟨rfl, (rebuild_fresh_session dirtyResources 0 1 { sequence_id := 0, actions := [] }
    rfl).2.2.2⟩
